import Mathlib

/-!
# Verification of the POS offline synchronization subsystem

Shallow embedding of the offline-sync plugin's three persistent models and
the operations the specification describes:

* `pos.offline.transaction` (src/models/pos_offline_transaction.py):
  idempotency-keyed transaction records with exponential-backoff retry;
* `pos.offline.queue` (src/models/pos_offline_queue.py):
  a per-owner durable work queue with overflow archival and a dead letter
  state;
* `pos.offline.model.cache` (src/models/pos_offline_model_cache.py):
  a TTL read cache invalidated on reconnect.

Modelling conventions, applied uniformly:

* Every operation in the source is scoped to the current user
  (`self.env.user.id` appears in every search domain), so a state models
  one owner's rows of one table.  Timestamps are seconds as `Nat`, passed
  explicitly (`now`) where the source calls `fields.Datetime.now()`.
* JSON payloads are opaque strings; the SHA-256 content hash is an
  explicit function argument `hash : String → String` standing for
  `hashlib.sha256(json.dumps(data, sort_keys=True).encode()).hexdigest()[:8]`
  (deterministic in the payload, which is all the claims use).
* The stub server / item processors (`_sync_to_server`, `_process_order`,
  ...) are abstracted as an `Except` argument giving the outcome of the
  call; an `Except.error` is a raised exception caught by the caller.
* Odoo searches with `order='sequence DESC', limit=1` are embedded as the
  maximum over the rows; searches with an `order` and no limit are
  embedded as an insertion sort of the filtered rows.
-/

namespace PosOffline

/-! ## pos.offline.transaction -/

/-- The `sync_status` selection of `pos.offline.transaction`
(`pending`, `synced`, `failed`, `duplicate` — the model has no other
status). -/
inductive SyncStatus where
  | pending
  | synced
  | failed
  | duplicate
deriving DecidableEq

/-- One row of `pos.offline.transaction` (the fields the sync logic
reads or writes).  `transaction_data` is the opaque JSON payload. -/
structure Transaction where
  id : Nat
  idempotency_key : String
  transaction_type : String
  transaction_data : String
  order_id : Option Nat
  sync_status : SyncStatus
  sync_attempts : Nat
  last_sync_attempt : Option Nat
  synced_at : Option Nat
  error_message : Option String
deriving DecidableEq

/-- The current owner's rows of `pos.offline.transaction`, with the
database's id sequence. -/
structure TxState where
  rows : List Transaction
  next_id : Nat
deriving DecidableEq

/-- `_generate_idempotency_key(order_id, order_data)`: the source builds
`f"order_{order_id}_{timestamp}_{data_hash}"` — the literal prefix
`order` and the `order_id` argument, never the transaction type.  A
`None` order id renders as the string `None` (Python f-string).
`hash` abstracts the SHA-256-over-sorted-JSON digest truncated to 8 hex
characters. -/
def generate_idempotency_key (hash : String → String) (order_id : Option Nat)
    (order_data : String) (timestamp : Nat) : String :=
  let oid := match order_id with
    | some n => Nat.repr n
    | none => "None"
  "order_" ++ oid ++ "_" ++ Nat.repr timestamp ++ "_" ++ hash order_data

/-- Exponential backoff of `_compute_next_retry_at`:
`min(5 * (2 ** (attempts - 1)), 3600)` seconds. -/
def tx_backoff_seconds (sync_attempts : Nat) : Nat :=
  min (5 * 2 ^ (sync_attempts - 1)) 3600

/-- `_compute_next_retry_at`: `False` (`none`) unless the transaction is
`failed` with a recorded `last_sync_attempt`; otherwise the last attempt
plus the backoff. -/
def next_retry_at (t : Transaction) : Option Nat :=
  match t.sync_status, t.last_sync_attempt with
  | SyncStatus.failed, some last => some (last + tx_backoff_seconds t.sync_attempts)
  | _, _ => none

/-- `_compute_should_retry`: failed, with a retry time that has arrived. -/
def should_retry (now : Nat) (t : Transaction) : Bool :=
  decide (t.sync_status = SyncStatus.failed) &&
    match next_retry_at t with
    | some r => decide (r ≤ now)
    | none => false

/-- `create_transaction(transaction_type, transaction_data, order_id)`:
generates the idempotency key; if a row with that key exists, sets that
row's `sync_status` to `duplicate` (unconditionally) and returns it;
otherwise inserts a new row with default `sync_status = pending`,
`sync_attempts = 0`.  Returns the new state and the returned record. -/
def create_transaction (hash : String → String) (st : TxState)
    (transaction_type : String) (transaction_data : String)
    (order_id : Option Nat) (now : Nat) : TxState × Transaction :=
  let key := generate_idempotency_key hash order_id transaction_data now
  match st.rows.find? (fun t => t.idempotency_key = key) with
  | some existing =>
      let updated := { existing with sync_status := SyncStatus.duplicate }
      ({ st with
          rows := st.rows.map (fun t => if t.id = existing.id then updated else t) },
        updated)
  | none =>
      let fresh : Transaction :=
        { id := st.next_id
          idempotency_key := key
          transaction_type := transaction_type
          transaction_data := transaction_data
          order_id := order_id
          sync_status := SyncStatus.pending
          sync_attempts := 0
          last_sync_attempt := none
          synced_at := none
          error_message := none }
      ({ rows := st.rows ++ [fresh], next_id := st.next_id + 1 }, fresh)

/-- Result dictionary of `sync_transaction`. -/
structure SyncResult where
  success : Bool
  status : String
deriving DecidableEq

/-- `sync_transaction()`: early-returns on `synced` and `duplicate`;
otherwise attempts `_sync_to_server` (abstracted as `server`): on
success marks the row `synced`, on exception marks it `failed`; both
outcomes increment `sync_attempts` and stamp `last_sync_attempt`. -/
def sync_transaction (server : Except String String) (now : Nat)
    (t : Transaction) : Transaction × SyncResult :=
  if t.sync_status = SyncStatus.synced then
    (t, { success := true, status := "already_synced" })
  else if t.sync_status = SyncStatus.duplicate then
    (t, { success := false, status := "duplicate_detected" })
  else
    match server with
    | Except.ok _ =>
        ({ t with
            sync_status := SyncStatus.synced
            synced_at := some now
            sync_attempts := t.sync_attempts + 1
            last_sync_attempt := some now },
          { success := true, status := "synced" })
    | Except.error e =>
        ({ t with
            sync_status := SyncStatus.failed
            sync_attempts := t.sync_attempts + 1
            last_sync_attempt := some now
            error_message := some e },
          { success := false, status := "failed" })

/-- `retry_failed_transactions()`: searches
`sync_status = failed ∧ should_retry ∧ sync_attempts < 10` and calls
`sync_transaction` on each selected row (`server` gives each row's
server outcome by id); every other row is untouched. -/
def retry_failed_transactions (server : Nat → Except String String)
    (now : Nat) (st : TxState) : TxState :=
  { st with
      rows := st.rows.map (fun t =>
        if t.sync_status = SyncStatus.failed ∧ should_retry now t ∧
            t.sync_attempts < 10 then
          (sync_transaction (server t.id) now t).1
        else t) }

/-! ## pos.offline.queue -/

/-- The `status` selection of `pos.offline.queue`. -/
inductive QueueStatus where
  | queued
  | processing
  | completed
  | failed
  | archived
  | dead_letter
deriving DecidableEq

/-- One row of `pos.offline.queue` (the fields the queue logic reads or
writes).  `processing_time_ms` is recorded but wall-clock duration is
not modelled, so a processed item stores `some 0`. -/
structure QueueItem where
  id : Nat
  sequence : Nat
  item_type : String
  item_data : String
  status : QueueStatus
  attempts : Nat
  last_attempt_at : Option Nat
  error_message : Option String
  created_at : Nat
  completed_at : Option Nat
  archived_at : Option Nat
  processing_time_ms : Option Nat
deriving DecidableEq

/-- The current owner's rows of `pos.offline.queue`. -/
structure QState where
  rows : List QueueItem
  next_id : Nat
deriving DecidableEq

/-- Exponential backoff of `_compute_next_attempt_at`:
`min(5 * (2 ** (attempts - 1)), 3600)` seconds — the same formula as the
transaction model's. -/
def queue_backoff_seconds (attempts : Nat) : Nat :=
  min (5 * 2 ^ (attempts - 1)) 3600

/-- `_compute_next_attempt_at`: `False` (`none`) unless the status is
`failed` or `dead_letter` with a recorded `last_attempt_at`. -/
def next_attempt_at (it : QueueItem) : Option Nat :=
  match it.last_attempt_at with
  | some last =>
      if it.status = QueueStatus.failed ∨ it.status = QueueStatus.dead_letter then
        some (last + queue_backoff_seconds it.attempts)
      else none
  | none => none

/-- The owner's queued rows in `sequence ASC` order
(`search([... status = queued], order='sequence ASC')`). -/
def queued_by_sequence (st : QState) : List QueueItem :=
  List.insertionSort (fun a b => a.sequence ≤ b.sequence)
    (st.rows.filter (fun it => it.status = QueueStatus.queued))

/-- `_archive_old_queued_items(keep)`: orders the owner's queued rows by
sequence ascending and marks all but the most recent `keep` as
`archived`, stamping `archived_at` (Python `all_queued[:-keep]`). -/
def archive_old_queued_items (keep : Nat) (now : Nat) (st : QState) : QState :=
  let all_queued := queued_by_sequence st
  let to_archive :=
    if all_queued.length > keep then all_queued.take (all_queued.length - keep)
    else []
  { st with
      rows := st.rows.map (fun it =>
        if to_archive.any (fun a => a.id = it.id) then
          { it with status := QueueStatus.archived, archived_at := some now }
        else it) }

/-- The `sequence` of `search([...], order='sequence DESC', limit=1)`
with the source's `or 0` default: the maximum sequence over the owner's
rows, `0` when there are none. -/
def last_sequence (st : QState) : Nat :=
  st.rows.foldr (fun it m => max it.sequence m) 0

/-- `enqueue_transaction(transaction, item_type)`: counts the owner's
queued rows, assigns `last_sequence + 1`, inserts the new row (status
`queued`, `attempts = 0`), and if the pre-insert queued count was at
least 1000 archives all but the most recent 500 queued rows. -/
def enqueue_transaction (st : QState) (item_type : String)
    (item_data : String) (now : Nat) : QState × QueueItem :=
  let queue_size := (st.rows.filter (fun it => it.status = QueueStatus.queued)).length
  let next_sequence := last_sequence st + 1
  let entry : QueueItem :=
    { id := st.next_id
      sequence := next_sequence
      item_type := item_type
      item_data := item_data
      status := QueueStatus.queued
      attempts := 0
      last_attempt_at := none
      error_message := none
      created_at := now
      completed_at := none
      archived_at := none
      processing_time_ms := none }
  let st' : QState := { rows := st.rows ++ [entry], next_id := st.next_id + 1 }
  if queue_size ≥ 1000 then (archive_old_queued_items 500 now st', entry)
  else (st', entry)

/-- Result dictionary of `process_queue_item`. -/
structure ProcessResult where
  success : Bool
  status : String
deriving DecidableEq

/-- `process_queue_item()`: early-returns on `completed` (success) and
`dead_letter` (rejection) without touching the row; otherwise runs
`_process_by_type` (abstracted as `proc`): on success marks the row
`completed` with `completed_at`; on exception marks it `failed`, stamps
`last_attempt_at` and the error, and moves it to `dead_letter` once
`attempts` reaches 5.  Both paths increment `attempts`. -/
def process_queue_item (proc : Except String Unit) (now : Nat)
    (it : QueueItem) : QueueItem × ProcessResult :=
  if it.status = QueueStatus.completed then
    (it, { success := true, status := "already_completed" })
  else if it.status = QueueStatus.dead_letter then
    (it, { success := false, status := "in_dead_letter_queue" })
  else
    match proc with
    | Except.ok _ =>
        ({ it with
            status := QueueStatus.completed
            completed_at := some now
            processing_time_ms := some 0
            attempts := it.attempts + 1 },
          { success := true, status := "completed" })
    | Except.error e =>
        let failed :=
          { it with
              status := QueueStatus.failed
              attempts := it.attempts + 1
              last_attempt_at := some now
              error_message := some e
              processing_time_ms := some 0 }
        let final :=
          if failed.attempts ≥ 5 then
            { failed with status := QueueStatus.dead_letter }
          else failed
        (final, { success := false, status := "failed" })

/-- `retry_failed_items()`: searches `status = failed ∧ attempts < 5`
and calls `process_queue_item` on each selected row (`proc` gives each
row's processing outcome by id); every other row is untouched. -/
def retry_failed_items (proc : Nat → Except String Unit) (now : Nat)
    (st : QState) : QState :=
  { st with
      rows := st.rows.map (fun it =>
        if it.status = QueueStatus.failed ∧ it.attempts < 5 then
          (process_queue_item (proc it.id) now it).1
        else it) }

/-- `cleanup_completed_queue_items(days)`: hard-deletes (`unlink`) the
`completed` rows whose `completed_at` is older than `now - days` days. -/
def cleanup_completed_queue_items (days : Nat) (now : Nat) (st : QState) : QState :=
  let cutoff := now - days * 86400
  { st with
      rows := st.rows.filter (fun it =>
        ! (decide (it.status = QueueStatus.completed) &&
            match it.completed_at with
            | some c => decide (c < cutoff)
            | none => false)) }

/-- The counts returned by `get_queue_stats()`. -/
structure QueueStats where
  total : Nat
  queued : Nat
  processing : Nat
  completed : Nat
  failed : Nat
  dead_letter : Nat
  queue_overflow : Bool
deriving DecidableEq

/-- `get_queue_stats()`: per-status `search_count`s for the owner. -/
def get_queue_stats (st : QState) : QueueStats :=
  let count := fun (s : QueueStatus) =>
    (st.rows.filter (fun it => it.status = s)).length
  { total := st.rows.length
    queued := count QueueStatus.queued
    processing := count QueueStatus.processing
    completed := count QueueStatus.completed
    failed := count QueueStatus.failed
    dead_letter := count QueueStatus.dead_letter
    queue_overflow := decide (count QueueStatus.queued > 1000) }

/-! ## pos.offline.model.cache -/

/-- One row of `pos.offline.model.cache`.  `is_valid` is the stored
computed field: it is recomputed (as `expires_at > now`) whenever
`created_at`/`expires_at` change, and `invalidate_cache` overwrites it
with `False`. -/
structure CacheEntry where
  id : Nat
  model_name : String
  record_id : Nat
  record_data : String
  data_hash : String
  cache_version : Nat
  created_at : Nat
  is_valid : Bool
  accessed_count : Nat
  last_accessed_at : Option Nat
deriving DecidableEq

/-- The current owner's rows of `pos.offline.model.cache`. -/
structure CState where
  rows : List CacheEntry
  next_id : Nat
deriving DecidableEq

/-- `_compute_expires_at`: `created_at` plus the fixed 900-second
(15-minute) TTL. -/
def expires_at (e : CacheEntry) : Nat :=
  e.created_at + 900

/-- `_compute_is_valid`: the cache entry has an expiry strictly in the
future. -/
def compute_is_valid (now : Nat) (e : CacheEntry) : Bool :=
  decide (expires_at e > now)

/-- `cache_record(model_name, record_id, record_data)`: upsert.  If a
row for `(model_name, record_id)` exists, rewrites its data and hash,
increments `cache_version` and resets `created_at` (which recomputes
`expires_at`/`is_valid`); otherwise inserts a new row with
`cache_version = 1`.  `hash` abstracts the SHA-256-over-sorted-JSON
digest of `_compute_data_hash`. -/
def cache_record (hash : String → String) (st : CState) (model_name : String)
    (record_id : Nat) (record_data : String) (now : Nat) : CState × CacheEntry :=
  let data_hash := hash record_data
  match st.rows.find? (fun e =>
      e.model_name = model_name ∧ e.record_id = record_id) with
  | some existing =>
      let updated :=
        let e' := { existing with
            record_data := record_data
            data_hash := data_hash
            cache_version := existing.cache_version + 1
            created_at := now }
        { e' with is_valid := compute_is_valid now e' }
      ({ st with
          rows := st.rows.map (fun e => if e.id = existing.id then updated else e) },
        updated)
  | none =>
      let fresh : CacheEntry :=
        let e' : CacheEntry :=
          { id := st.next_id
            model_name := model_name
            record_id := record_id
            record_data := record_data
            data_hash := data_hash
            cache_version := 1
            created_at := now
            is_valid := true
            accessed_count := 0
            last_accessed_at := none }
        { e' with is_valid := compute_is_valid now e' }
      ({ rows := st.rows ++ [fresh], next_id := st.next_id + 1 }, fresh)

/-- `get_cached_record(model_name, record_id)`: returns the cached
payload only from a row with `is_valid = True`; otherwise `None`
(a miss).  A hit bumps `accessed_count` and `last_accessed_at`. -/
def get_cached_record (st : CState) (model_name : String) (record_id : Nat)
    (now : Nat) : CState × Option String :=
  match st.rows.find? (fun e =>
      e.model_name = model_name ∧ e.record_id = record_id ∧ e.is_valid = true) with
  | none => (st, none)
  | some entry =>
      let updated := { entry with
          accessed_count := entry.accessed_count + 1
          last_accessed_at := some now }
      ({ st with
          rows := st.rows.map (fun e => if e.id = entry.id then updated else e) },
        some entry.record_data)

/-- `invalidate_cache()` on a recordset: `self.ensure_one()` raises
unless the recordset holds exactly one row; then sets that row's
`is_valid` to `False`.  The recordset is given by its row ids. -/
def invalidate_cache (st : CState) (ids : List Nat) : Except String CState :=
  if ids.length = 1 then
    Except.ok { st with
        rows := st.rows.map (fun e =>
          if ids.contains e.id then { e with is_valid := false } else e) }
  else Except.error "ensure_one: expected singleton recordset"

/-- `invalidate_all_cache_on_reconnect()`: searches all of the owner's
rows and calls `invalidate_cache` on the whole recordset at once. -/
def invalidate_all_cache_on_reconnect (st : CState) : Except String CState :=
  invalidate_cache st (st.rows.map (fun e => e.id))

/-! ## Concrete scenarios used by the claims -/

/-- The ORM persisting the record mutated by `process_queue_item` back
into the owner's table: the row with the given id is replaced by its
processed version. -/
def process_item_in_state (proc : Except String Unit) (now : Nat)
    (item_id : Nat) (st : QState) : QState :=
  { st with
      rows := st.rows.map (fun it =>
        if it.id = item_id then (process_queue_item proc now it).1 else it) }

/-- Empty per-owner queue table. -/
def emptyQ : QState := { rows := [], next_id := 0 }

/-- `enqueue_iter ty dat tm n`: the owner's queue after `n` successive
`enqueue_transaction` calls starting from the empty queue, the `i`-th
call (0-based) enqueueing item type `ty i` and payload `dat i` at time
`tm i`. -/
def enqueue_iter (ty dat : Nat → String) (tm : Nat → Nat) : Nat → QState
  | 0 => emptyQ
  | n + 1 =>
      (enqueue_transaction (enqueue_iter ty dat tm n) (ty n) (dat n) (tm n)).1

/-- The row the `i`-th enqueue of the scenario inserts: database id `i`,
sequence `i + 1`, freshly queued. -/
def scenario_item (ty dat : Nat → String) (tm : Nat → Nat) (i : Nat) : QueueItem :=
  { id := i
    sequence := i + 1
    item_type := ty i
    item_data := dat i
    status := QueueStatus.queued
    attempts := 0
    last_attempt_at := none
    error_message := none
    created_at := tm i
    completed_at := none
    archived_at := none
    processing_time_ms := none }

/-- The first `n` scenario rows, in insertion order. -/
def scenario_rows (ty dat : Nat → String) (tm : Nat → Nat) : Nat → List QueueItem
  | 0 => []
  | n + 1 => scenario_rows ty dat tm n ++ [scenario_item ty dat tm n]

/-- `process_failures k it`: `k` successive `process_queue_item` calls
on the item, each of whose `_process_by_type` raises (the `j`-th at
time `j`). -/
def process_failures : Nat → QueueItem → QueueItem
  | 0, it => it
  | k + 1, it => (process_queue_item (Except.error "boom") k (process_failures k it)).1

/-- What the overflow archival of the 1001st enqueue does to one row:
rows among the oldest 501 queued items (the archive set is
`scenario_rows .. 501`) are marked `archived` and stamped with the
archival time `tm 1000`; the rest are untouched. -/
def scenario_mark (ty dat : Nat → String) (tm : Nat → Nat) (it : QueueItem) : QueueItem :=
  if (scenario_rows ty dat tm 501).any (fun a => a.id = it.id) then
    { it with status := QueueStatus.archived, archived_at := some (tm 1000) }
  else it

/-- A concrete synced transaction (used to instantiate theorems with
hypotheses). -/
def tx_synced_example : Transaction :=
  { id := 0
    idempotency_key := "k"
    transaction_type := "order"
    transaction_data := "d"
    order_id := none
    sync_status := SyncStatus.synced
    sync_attempts := 1
    last_sync_attempt := some 0
    synced_at := some 0
    error_message := none }

/-- A concrete failed transaction that has exhausted its 10 attempts. -/
def tx_exhausted_example : Transaction :=
  { id := 1
    idempotency_key := "k2"
    transaction_type := "order"
    transaction_data := "d"
    order_id := none
    sync_status := SyncStatus.failed
    sync_attempts := 10
    last_sync_attempt := some 0
    synced_at := none
    error_message := some "e" }

/-- A concrete queue item in the `dead_letter` status. -/
def item_dead_letter_example : QueueItem :=
  { id := 0
    sequence := 1
    item_type := "order"
    item_data := "d"
    status := QueueStatus.dead_letter
    attempts := 5
    last_attempt_at := some 4
    error_message := some "boom"
    created_at := 0
    completed_at := none
    archived_at := none
    processing_time_ms := some 0 }

/-- A concrete completed queue item. -/
def item_completed_example : QueueItem :=
  { item_dead_letter_example with
      id := 1
      status := QueueStatus.completed
      attempts := 1
      completed_at := some 4
      error_message := none }

/-- Two cache entries clash when they share the `(model_name, record_id)`
cache key (the owner is fixed throughout). -/
def cache_key_clash (a b : CacheEntry) : Prop :=
  a.model_name = b.model_name ∧ a.record_id = b.record_id

instance (a b : CacheEntry) : Decidable (cache_key_clash a b) :=
  decidable_of_iff (a.model_name = b.model_name ∧ a.record_id = b.record_id) Iff.rfl

/-- At most one cache entry per `(model_name, record_id)` key. -/
def CacheUnique (st : CState) : Prop :=
  st.rows.Pairwise (fun a b => ¬ cache_key_clash a b)

/-! ## Claim C1 -/

/-- Claim C1, counterexample.  A transaction is created, synced
(`sync_status = synced`, a terminal status), and then `create_transaction`
is called again with identical arguments at the same timestamp, so the
same idempotency key is generated.  The claim says the second call
leaves the first record's `sync_status` unchanged and in particular
never resets a synced record to `duplicate`; in fact the second call
sets the synced record's `sync_status` to `duplicate`. -/
theorem create_transaction_resets_synced_to_duplicate :
    (let h : String → String := fun _ => "a1b2c3d4"
     let r1 := create_transaction h { rows := [], next_id := 0 } "order" "d" (some 42) 100
     let t1s := (sync_transaction (Except.ok "resp") 100 r1.2).1
     let r2 := create_transaction h { rows := [t1s], next_id := 1 } "order" "d" (some 42) 100
     t1s.sync_status = SyncStatus.synced ∧ r2.2.id = t1s.id ∧
       r2.2.sync_status = SyncStatus.duplicate ∧
       r2.1.rows.map (fun t => t.sync_status) = [SyncStatus.duplicate]) := by
  decide

/-- Claim C1, amended.  When `create_transaction` finds an existing row
with the generated idempotency key, it creates no new row, returns the
existing record (same id, same payload), and reports `duplicate` — but
it does so by unconditionally overwriting the existing record's
`sync_status` with `duplicate`, whatever status (including the terminal
`synced`) the record had. -/
theorem create_transaction_duplicate_behavior (hash : String → String)
    (st : TxState) (ty td : String) (oid : Option Nat) (now : Nat) (e : Transaction)
    (hfind : st.rows.find?
        (fun t => t.idempotency_key = generate_idempotency_key hash oid td now) = some e) :
    (create_transaction hash st ty td oid now).1.rows.length = st.rows.length ∧
    (create_transaction hash st ty td oid now).2.id = e.id ∧
    (create_transaction hash st ty td oid now).2.transaction_data = e.transaction_data ∧
    (create_transaction hash st ty td oid now).2.sync_status = SyncStatus.duplicate ∧
    (create_transaction hash st ty td oid now).1.rows =
      st.rows.map (fun t =>
        if t.id = e.id then { e with sync_status := SyncStatus.duplicate } else t) := by
  simp [create_transaction, hfind]

/-- Witness for `create_transaction_duplicate_behavior`: the second of
two identical calls on a one-row store. -/
theorem create_transaction_duplicate_behavior_witness :
    (let h : String → String := fun _ => "a1b2c3d4"
     let r1 := create_transaction h { rows := [], next_id := 0 } "order" "d" (some 42) 100
     (create_transaction h r1.1 "order" "d" (some 42) 100).1.rows.length =
        r1.1.rows.length ∧
      (create_transaction h r1.1 "order" "d" (some 42) 100).2.id = r1.2.id) := by
  have h := create_transaction_duplicate_behavior (fun _ => "a1b2c3d4")
    (create_transaction (fun _ => "a1b2c3d4") { rows := [], next_id := 0 }
        "order" "d" (some 42) 100).1
    "order" "d" (some 42) 100
    (create_transaction (fun _ => "a1b2c3d4") { rows := [], next_id := 0 }
        "order" "d" (some 42) 100).2
    (by decide)
  exact ⟨h.1, h.2.1⟩

/-! ## Claim C2 -/

/-- Claim C2, counterexample.  The claim allows only
`pending → {synced, failed}` and `failed → {failed, dead_letter}`.
A failed transaction that is due for retry and whose retry attempt
succeeds transitions `failed → synced`, which the claimed transition
relation forbids (and the transaction model has no `dead_letter`
status at all — its selection is pending/synced/failed/duplicate). -/
theorem retry_moves_failed_to_synced :
    (let h : String → String := fun _ => "a1b2c3d4"
     let t1 := (create_transaction h { rows := [], next_id := 0 } "order" "d" (some 1) 0).2
     let t2 := (sync_transaction (Except.error "timeout") 10 t1).1
     t2.sync_status = SyncStatus.failed ∧ t2.sync_attempts = 1 ∧
       (retry_failed_transactions (fun _ => Except.ok "resp") 100
           { rows := [t2], next_id := 1 }).rows.map (fun t => t.sync_status) =
         [SyncStatus.synced]) := by
  decide

/-- Claim C2, amended.  The transitions `sync_transaction` actually
performs: `synced` and `duplicate` are left untouched (with an
`already_synced` success / `duplicate_detected` failure result);
`pending` or `failed` transitions to `synced` on a successful server
call and to `failed` on an exception; and the scheduled
`retry_failed_transactions` never selects a transaction whose
`sync_attempts` has reached 10 — such a transaction stays `failed`
forever (the transaction model has no `dead_letter` status). -/
theorem tx_status_transitions :
    (∀ (server : Except String String) (now : Nat) (t : Transaction),
        t.sync_status = SyncStatus.synced →
        sync_transaction server now t = (t, { success := true, status := "already_synced" })) ∧
    (∀ (server : Except String String) (now : Nat) (t : Transaction),
        t.sync_status = SyncStatus.duplicate →
        sync_transaction server now t =
          (t, { success := false, status := "duplicate_detected" })) ∧
    (∀ (server : Except String String) (now : Nat) (t : Transaction),
        t.sync_status = SyncStatus.pending ∨ t.sync_status = SyncStatus.failed →
        ((sync_transaction server now t).1.sync_status = SyncStatus.synced ∧
            (sync_transaction server now t).2.success = true) ∨
          ((sync_transaction server now t).1.sync_status = SyncStatus.failed ∧
            (sync_transaction server now t).2.success = false)) ∧
    (∀ (server : Nat → Except String String) (now : Nat) (st : TxState)
        (i : Nat) (t : Transaction), st.rows[i]? = some t → 10 ≤ t.sync_attempts →
        (retry_failed_transactions server now st).rows[i]? = some t) := by
  refine ⟨?_, ?_, ?_, ?_⟩
  · intro server now t h
    simp [sync_transaction, h]
  · intro server now t h
    simp [sync_transaction, h]
  · intro server now t h
    rcases h with h | h <;> cases server <;> simp [sync_transaction, h]
  · intro server now st i t hget hatt
    unfold retry_failed_transactions
    simp only [List.getElem?_map, hget, Option.map_some']
    have : ¬ (t.sync_status = SyncStatus.failed ∧ should_retry now t = true ∧
        t.sync_attempts < 10) := by
      rintro ⟨-, -, hlt⟩
      omega
    rw [if_neg this]

/-- Witness for `tx_status_transitions`: a synced record is untouched by
a sync attempt, and a failed record with 10 attempts is untouched by the
retry pass. -/
theorem tx_status_transitions_witness :
    sync_transaction (Except.ok "r") 5 tx_synced_example =
      (tx_synced_example, { success := true, status := "already_synced" }) ∧
    (retry_failed_transactions (fun _ => Except.ok "r") 99999
        { rows := [tx_exhausted_example], next_id := 2 }).rows[0]? =
      some tx_exhausted_example :=
  ⟨tx_status_transitions.1 (Except.ok "r") 5 tx_synced_example rfl,
    tx_status_transitions.2.2.2 (fun _ => Except.ok "r") 99999
      { rows := [tx_exhausted_example], next_id := 2 } 0 tx_exhausted_example
      rfl (by decide)⟩

/-! ## Claim C4 -/

/-- Claim C4, code bug.  With two cache entries for the owner,
`invalidate_all_cache_on_reconnect` calls `invalidate_cache` — which
begins with `self.ensure_one()` — on the two-record set, so it raises
instead of invalidating, and both entries keep `is_valid = True`
(every `get` still hits).  With exactly one entry the operation works
as the claim describes.  The module's own test
(`test_invalidate_all_on_reconnect`, four entries) exercises the
multi-entry case and contradicts the code. -/
theorem invalidate_all_on_reconnect_raises_on_two_entries :
    (let h : String → String := fun _ => "h"
     let st1 := (cache_record h { rows := [], next_id := 0 } "product.product" 1 "d1" 0).1
     let st2 := (cache_record h st1 "product.product" 2 "d2" 0).1
     (invalidate_all_cache_on_reconnect st2).toOption = none ∧
      st2.rows.length = 2 ∧
      st2.rows.all (fun e => e.is_valid) = true ∧
      (get_cached_record st2 "product.product" 1 5).2 = some "d1" ∧
      ((invalidate_all_cache_on_reconnect st1).toOption.map
          (fun st => (get_cached_record st "product.product" 1 5).2)) = some none) := by
  decide

/-! ## Claim C6 -/

/-- Claim C6, counterexample.  The claim says a sequence value is never
reused even after hard deletion by the retention purge.  In fact the
next sequence is computed from the maximum over the *currently existing*
rows, so after the only row (sequence 1) is completed and hard-deleted
by `cleanup_completed_queue_items`, the next enqueue assigns sequence 1
again to a distinct new row. -/
theorem sequence_reused_after_purge :
    (let r1 := enqueue_transaction emptyQ "order" "d" 0
     let st2 := process_item_in_state (Except.ok ()) 5 r1.2.id r1.1
     let st3 := cleanup_completed_queue_items 7 (86400 * 10) st2
     let r4 := enqueue_transaction st3 "order" "d2" (86400 * 10)
     r1.2.sequence = 1 ∧ st3.rows = [] ∧ r4.2.sequence = 1 ∧ r1.2.id ≠ r4.2.id) := by
  decide

/-- Claim C6, amended.  Within one owner's queue, every enqueue assigns
`max existing sequence + 1`, which is strictly greater than the
sequence of every row currently in the table (archival keeps rows, so
sequences are never reused while rows persist); a sequence can be
reused only after rows are hard-deleted by the retention purge. -/
theorem enqueue_assigns_strictly_greater_sequence (st : QState)
    (ty td : String) (now : Nat) (it : QueueItem) (hmem : it ∈ st.rows) :
    it.sequence < (enqueue_transaction st ty td now).2.sequence := by
  have haux : ∀ l : List QueueItem, it ∈ l →
      it.sequence ≤ l.foldr (fun x m => max x.sequence m) 0 := by
    intro l hm
    induction l with
    | nil => cases hm
    | cons a l ih =>
        rcases List.mem_cons.mp hm with h | h
        · subst h
          exact Nat.le_max_left _ _
        · exact Nat.le_trans (ih h) (Nat.le_max_right _ _)
  have hle : it.sequence ≤ last_sequence st := haux st.rows hmem
  have hseq : (enqueue_transaction st ty td now).2.sequence = last_sequence st + 1 := by
    unfold enqueue_transaction
    by_cases hq :
        (st.rows.filter (fun x => x.status = QueueStatus.queued)).length ≥ 1000 <;>
      simp [hq]
  omega

/-- Witness for `enqueue_assigns_strictly_greater_sequence`: the second
enqueue's sequence exceeds the first row's. -/
theorem enqueue_assigns_strictly_greater_sequence_witness :
    (let r1 := enqueue_transaction emptyQ "order" "d" 0
     r1.2.sequence < (enqueue_transaction r1.1 "order" "d2" 1).2.sequence) :=
  enqueue_assigns_strictly_greater_sequence
    (enqueue_transaction emptyQ "order" "d" 0).1 "order" "d2" 1
    (enqueue_transaction emptyQ "order" "d" 0).2 (by decide)

/-! ## Claim C8 -/

/-- Claim C8, counterexample.  The claim says the generated idempotency
key begins with the transaction's own type, so a `payment` transaction's
key would start with `payment_`.  In fact `_generate_idempotency_key`
hard-codes the literal prefix `order`: the created `payment` transaction's
key is `order_7_1704067200_a1b2c3d4`, which does not start with
`payment_`. -/
theorem payment_key_does_not_start_with_payment :
    (let r := create_transaction (fun _ => "a1b2c3d4") { rows := [], next_id := 0 }
        "payment" "d" (some 7) 1704067200
     r.2.transaction_type = "payment" ∧
       r.2.idempotency_key = "order_7_1704067200_a1b2c3d4" ∧
       r.2.idempotency_key.toList.take 8 ≠ "payment_".toList ∧
       r.2.idempotency_key.toList.take 6 = "order_".toList) := by
  decide

/-- Claim C8, amended.  The generated key is
`"order_{origin_id}_{timestamp}_{hash(payload)[:8]}"` — the literal
prefix `order`, not the transaction's type, which does not enter the
key at all: two creations differing only in transaction type get the
same key; for origin id 42 the key starts with `order_42_` whatever the
type. -/
theorem idempotency_key_ignores_transaction_type (hash : String → String)
    (ty1 ty2 td : String) (oid : Option Nat) (now : Nat) :
    (create_transaction hash { rows := [], next_id := 0 } ty1 td oid now).2.idempotency_key =
      (create_transaction hash { rows := [], next_id := 0 } ty2 td oid now).2.idempotency_key ∧
    generate_idempotency_key hash oid td now =
      "order_" ++ (match oid with | some n => Nat.repr n | none => "None") ++ "_" ++
        Nat.repr now ++ "_" ++ hash td ∧
    (create_transaction hash { rows := [], next_id := 0 } ty1 td (some 42) now).2.idempotency_key =
      "order_42_" ++ Nat.repr now ++ "_" ++ hash td := by
  exact ⟨rfl, rfl, rfl⟩

/-! ## Claim C5 -/

/-- Claim C5, confirmed.  For both models the retry delay after a failed
attempt is `min(5 * 2^(attempt_count - 1), 3600)` seconds added to the
last attempt time; the delay is non-decreasing in the attempt count over
1..10 and capped at 3600; concretely 5s at attempt 1, 80s at attempt 5,
3600s at attempt 12. -/
theorem backoff_formula_monotone_capped :
    (∀ (t : Transaction) (l : Nat), t.sync_status = SyncStatus.failed →
        t.last_sync_attempt = some l →
        next_retry_at t = some (l + min (5 * 2 ^ (t.sync_attempts - 1)) 3600)) ∧
    (∀ (it : QueueItem) (l : Nat), it.status = QueueStatus.failed →
        it.last_attempt_at = some l →
        next_attempt_at it = some (l + min (5 * 2 ^ (it.attempts - 1)) 3600)) ∧
    (∀ a b : Nat, 1 ≤ a → a ≤ b → b ≤ 10 →
        tx_backoff_seconds a ≤ tx_backoff_seconds b) ∧
    (∀ a : Nat, tx_backoff_seconds a ≤ 3600) ∧
    (∀ a : Nat, queue_backoff_seconds a = tx_backoff_seconds a) ∧
    tx_backoff_seconds 1 = 5 ∧ tx_backoff_seconds 5 = 80 ∧
    tx_backoff_seconds 12 = 3600 := by
  refine ⟨?_, ?_, ?_, ?_, ?_, by decide, by decide, by decide⟩
  · intro t l hs hl
    simp [next_retry_at, hs, hl, tx_backoff_seconds]
  · intro it l hs hl
    simp [next_attempt_at, hs, hl, queue_backoff_seconds]
  · intro a b _ hab _
    unfold tx_backoff_seconds
    refine min_le_min (Nat.mul_le_mul_left 5 ?_) (le_refl 3600)
    exact Nat.pow_le_pow_right (by omega) (by omega)
  · intro a
    exact min_le_right _ _
  · intro a
    rfl

/-- Witness for `backoff_formula_monotone_capped`: a concrete failed
transaction has `next_retry_at = last + 5`, and the delay at attempt 3
is at most the delay at attempt 7. -/
theorem backoff_formula_monotone_capped_witness :
    (let tFailed := (sync_transaction (Except.error "timeout") 10
      (create_transaction (fun _ => "a1b2c3d4") { rows := [], next_id := 0 }
          "order" "d" (some 1) 0).2).1
     next_retry_at tFailed = some (10 + min (5 * 2 ^ (tFailed.sync_attempts - 1)) 3600)) ∧
    tx_backoff_seconds 3 ≤ tx_backoff_seconds 7 :=
  ⟨backoff_formula_monotone_capped.1 _ 10 (by decide) (by decide),
    backoff_formula_monotone_capped.2.2.1 3 7 (by decide) (by decide) (by decide)⟩

/-! ## Claim C7 -/

/-- Claim C7, confirmed.  Processing a `completed` queue item is a
no-op returning success; processing a `dead_letter` item is a no-op
returning an explicit rejection (`success = false`); and the scheduled
`retry_failed_items` pass never selects a `dead_letter` item (it
searches `status = failed ∧ attempts < 5`), so a `dead_letter` row is
never mutated again. -/
theorem terminal_queue_items_never_mutated :
    (∀ (proc : Except String Unit) (now : Nat) (it : QueueItem),
        it.status = QueueStatus.completed →
        process_queue_item proc now it =
          (it, { success := true, status := "already_completed" })) ∧
    (∀ (proc : Except String Unit) (now : Nat) (it : QueueItem),
        it.status = QueueStatus.dead_letter →
        process_queue_item proc now it =
          (it, { success := false, status := "in_dead_letter_queue" })) ∧
    (∀ (proc : Nat → Except String Unit) (now : Nat) (st : QState)
        (i : Nat) (it : QueueItem), st.rows[i]? = some it →
        it.status = QueueStatus.dead_letter →
        (retry_failed_items proc now st).rows[i]? = some it) := by
  refine ⟨?_, ?_, ?_⟩
  · intro proc now it h
    simp [process_queue_item, h]
  · intro proc now it h
    simp [process_queue_item, h]
  · intro proc now st i it hget hdl
    unfold retry_failed_items
    simp only [List.getElem?_map, hget, Option.map_some']
    have : ¬ (it.status = QueueStatus.failed ∧ it.attempts < 5) := by
      rintro ⟨hf, -⟩
      rw [hdl] at hf
      cases hf
    rw [if_neg this]

/-- Witness for `terminal_queue_items_never_mutated`: concrete completed
and dead-letter items. -/
theorem terminal_queue_items_never_mutated_witness :
    process_queue_item (Except.ok ()) 9 item_completed_example =
      (item_completed_example, { success := true, status := "already_completed" }) ∧
    process_queue_item (Except.ok ()) 9 item_dead_letter_example =
      (item_dead_letter_example, { success := false, status := "in_dead_letter_queue" }) ∧
    (retry_failed_items (fun _ => Except.ok ()) 9
        { rows := [item_dead_letter_example], next_id := 2 }).rows[0]? =
      some item_dead_letter_example :=
  ⟨terminal_queue_items_never_mutated.1 (Except.ok ()) 9 item_completed_example rfl,
    terminal_queue_items_never_mutated.2.1 (Except.ok ()) 9 item_dead_letter_example rfl,
    terminal_queue_items_never_mutated.2.2 (fun _ => Except.ok ()) 9
      { rows := [item_dead_letter_example], next_id := 2 } 0 item_dead_letter_example
      rfl rfl⟩

/-! ## Claim C10 -/

/-- Claim C10, confirmed.  Every invocation of `process_queue_item`
that is not short-circuited by the `completed`/`dead_letter` early
returns increments `attempts` by exactly one, on the success path as
well as on the failure path; a fresh item that fails `k < 5` times and
then succeeds ends `completed` with `attempts = k + 1`. -/
theorem process_queue_item_counts_attempts :
    (∀ (proc : Except String Unit) (now : Nat) (it : QueueItem),
        it.status ≠ QueueStatus.completed → it.status ≠ QueueStatus.dead_letter →
        (process_queue_item proc now it).1.attempts = it.attempts + 1) ∧
    (∀ k : Nat, k < 5 →
        (process_queue_item (Except.ok ()) 100
            (process_failures k (enqueue_transaction emptyQ "order" "d" 0).2)).1.status =
          QueueStatus.completed ∧
        (process_queue_item (Except.ok ()) 100
            (process_failures k (enqueue_transaction emptyQ "order" "d" 0).2)).1.attempts =
          k + 1) := by
  constructor
  · intro proc now it h1 h2
    unfold process_queue_item
    rw [if_neg h1, if_neg h2]
    cases proc with
    | ok _ => rfl
    | error e =>
        simp only
        by_cases h5 : it.attempts + 1 ≥ 5 <;> simp [h5]
  · decide

/-- Witness for `process_queue_item_counts_attempts`: a fresh queued
item processed once with a failure has `attempts = 1`; failing twice
then succeeding gives `completed` with `attempts = 3`. -/
theorem process_queue_item_counts_attempts_witness :
    (process_queue_item (Except.error "boom") 0
        (enqueue_transaction emptyQ "order" "d" 0).2).1.attempts =
      (enqueue_transaction emptyQ "order" "d" 0).2.attempts + 1 ∧
    (process_queue_item (Except.ok ()) 100
        (process_failures 2 (enqueue_transaction emptyQ "order" "d" 0).2)).1.status =
      QueueStatus.completed ∧
    (process_queue_item (Except.ok ()) 100
        (process_failures 2 (enqueue_transaction emptyQ "order" "d" 0).2)).1.attempts = 3 :=
  ⟨process_queue_item_counts_attempts.1 (Except.error "boom") 0
      (enqueue_transaction emptyQ "order" "d" 0).2 (by decide) (by decide),
    (process_queue_item_counts_attempts.2 2 (by decide)).1,
    (process_queue_item_counts_attempts.2 2 (by decide)).2⟩

/-! ## Claim C9 -/

/-- Claim C9, confirmed.  `cache_record` is an upsert: under the
invariants that cache keys and row ids are unique, it preserves
key-uniqueness; when an entry with the key exists it rewrites that row
in place (same row count, same id, hash recomputed, `cache_version`
incremented by one, `created_at` reset to now); when none exists it
inserts exactly one row; and every entry's expiry is
`created_at + 900` seconds (the fixed 15-minute TTL). -/
theorem cache_record_upsert_unique (hash : String → String) (st : CState)
    (m : String) (rid : Nat) (d : String) (now : Nat) :
    (CacheUnique st → (∀ a ∈ st.rows, ∀ b ∈ st.rows, a.id = b.id → a = b) →
        CacheUnique (cache_record hash st m rid d now).1) ∧
    (∀ e : CacheEntry,
        st.rows.find? (fun x => x.model_name = m ∧ x.record_id = rid) = some e →
        (cache_record hash st m rid d now).1.rows.length = st.rows.length ∧
        (cache_record hash st m rid d now).2.cache_version = e.cache_version + 1 ∧
        (cache_record hash st m rid d now).2.created_at = now ∧
        (cache_record hash st m rid d now).2.id = e.id ∧
        (cache_record hash st m rid d now).2.data_hash = hash d) ∧
    (st.rows.find? (fun x => x.model_name = m ∧ x.record_id = rid) = none →
        (cache_record hash st m rid d now).1.rows.length = st.rows.length + 1) ∧
    (∀ e : CacheEntry, expires_at e = e.created_at + 900) := by
  refine ⟨?_, ?_, ?_, fun e => rfl⟩
  · intro huniq hid
    unfold CacheUnique at huniq ⊢
    unfold cache_record
    cases hfind : st.rows.find? (fun x => x.model_name = m ∧ x.record_id = rid) with
    | some e =>
        simp only
        rw [List.pairwise_map]
        have hmem := List.mem_of_find?_eq_some hfind
        refine huniq.imp_of_mem ?_
        intro a b ha hb hnc hc
        apply hnc
        have keep : ∀ c, c ∈ st.rows →
            ((if c.id = e.id then
                { { e with
                    record_data := d, data_hash := hash d,
                    cache_version := e.cache_version + 1, created_at := now } with
                  is_valid := compute_is_valid now
                    { e with
                      record_data := d, data_hash := hash d,
                      cache_version := e.cache_version + 1, created_at := now } }
              else c).model_name = c.model_name ∧
            (if c.id = e.id then
                { { e with
                    record_data := d, data_hash := hash d,
                    cache_version := e.cache_version + 1, created_at := now } with
                  is_valid := compute_is_valid now
                    { e with
                      record_data := d, data_hash := hash d,
                      cache_version := e.cache_version + 1, created_at := now } }
              else c).record_id = c.record_id) := by
          intro c hcmem
          by_cases hce : c.id = e.id
          · have : c = e := hid c hcmem e hmem hce
            subst this
            simp [hce]
          · simp [hce]
        rcases hc with ⟨h1, h2⟩
        rcases keep a ha with ⟨ka1, ka2⟩
        rcases keep b hb with ⟨kb1, kb2⟩
        exact ⟨by rw [← ka1, ← kb1]; exact h1, by rw [← ka2, ← kb2]; exact h2⟩
    | none =>
        simp only
        rw [List.pairwise_append]
        have hnone := List.find?_eq_none.mp hfind
        refine ⟨huniq, List.pairwise_singleton _ _, ?_⟩
        intro a ha b hb hc
        have hno := hnone a ha
        rcases List.mem_singleton.mp hb with rfl
        rcases hc with ⟨h1, h2⟩
        apply hno
        simp only [Bool.and_eq_true, decide_eq_true_eq]
        exact ⟨h1, h2⟩
  · intro e hfind
    unfold cache_record
    rw [hfind]
    simp
  · intro hfind
    unfold cache_record
    rw [hfind]
    simp

/-- Witness for `cache_record_upsert_unique`: re-caching the single
cached record keeps one row and bumps its version to 2. -/
theorem cache_record_upsert_unique_witness :
    (let st1 := (cache_record (fun _ => "h") { rows := [], next_id := 0 }
        "product.product" 1 "d1" 0).1
     (cache_record (fun _ => "h2") st1 "product.product" 1 "d2" 60).1.rows.length =
        st1.rows.length ∧
      (cache_record (fun _ => "h2") st1 "product.product" 1 "d2" 60).2.cache_version =
        (cache_record (fun _ => "h") { rows := [], next_id := 0 }
            "product.product" 1 "d1" 0).2.cache_version + 1 ∧
      CacheUnique (cache_record (fun _ => "h2") st1 "product.product" 1 "d2" 60).1) := by
  have hu := (cache_record_upsert_unique (fun _ => "h2")
    (cache_record (fun _ => "h") { rows := [], next_id := 0 }
        "product.product" 1 "d1" 0).1
    "product.product" 1 "d2" 60).1
    (by unfold CacheUnique; decide)
    (by decide)
  have hs := (cache_record_upsert_unique (fun _ => "h2")
    (cache_record (fun _ => "h") { rows := [], next_id := 0 }
        "product.product" 1 "d1" 0).1
    "product.product" 1 "d2" 60).2.1
    (cache_record (fun _ => "h") { rows := [], next_id := 0 }
        "product.product" 1 "d1" 0).2
    (by decide)
  exact ⟨hs.1, hs.2.1, hu⟩

/-! ## Claim C3

The 1001-enqueue overflow scenario.  `enqueue_iter` runs 1001 successive
`enqueue_transaction` calls from the empty queue; the lemmas below give
the closed form of the reached states, symbolically (the state is too
large for kernel evaluation). -/

theorem scenario_rows_length (ty dat : Nat → String) (tm : Nat → Nat) :
    ∀ n, (scenario_rows ty dat tm n).length = n := by
  intro n
  induction n with
  | zero => rfl
  | succ n ih => simp [scenario_rows, ih]

theorem scenario_rows_mem (ty dat : Nat → String) (tm : Nat → Nat) :
    ∀ n it, it ∈ scenario_rows ty dat tm n ↔
      ∃ i, i < n ∧ it = scenario_item ty dat tm i := by
  intro n it
  induction n with
  | zero =>
      simp [scenario_rows]
  | succ n ih =>
      simp only [scenario_rows, List.mem_append, List.mem_singleton, ih]
      constructor
      · rintro (⟨i, hi, rfl⟩ | rfl)
        · exact ⟨i, by omega, rfl⟩
        · exact ⟨n, by omega, rfl⟩
      · rintro ⟨i, hi, rfl⟩
        by_cases h : i < n
        · exact Or.inl ⟨i, h, rfl⟩
        · have : i = n := by omega
          subst this
          exact Or.inr rfl

theorem scenario_rows_filter_queued (ty dat : Nat → String) (tm : Nat → Nat) :
    ∀ n, (scenario_rows ty dat tm n).filter
        (fun it => it.status = QueueStatus.queued) = scenario_rows ty dat tm n := by
  intro n
  induction n with
  | zero => rfl
  | succ n ih => simp [scenario_rows, List.filter_append, ih, scenario_item]

theorem scenario_rows_foldr_max (ty dat : Nat → String) (tm : Nat → Nat) :
    ∀ n m, (scenario_rows ty dat tm n).foldr (fun x a => max x.sequence a) m =
      max n m := by
  intro n
  induction n with
  | zero =>
      intro m
      simp [scenario_rows]
  | succ n ih =>
      intro m
      rw [scenario_rows, List.foldr_append, List.foldr_cons, List.foldr_nil, ih]
      show max n (max (scenario_item ty dat tm n).sequence m) = max (n + 1) m
      simp only [scenario_item]
      omega

theorem scenario_rows_sorted (ty dat : Nat → String) (tm : Nat → Nat) :
    ∀ n, (scenario_rows ty dat tm n).Pairwise
      (fun a b => a.sequence ≤ b.sequence) := by
  intro n
  induction n with
  | zero => exact List.Pairwise.nil
  | succ n ih =>
      rw [scenario_rows, List.pairwise_append]
      refine ⟨ih, List.pairwise_singleton _ _, ?_⟩
      intro a ha b hb
      rcases (scenario_rows_mem ty dat tm n a).mp ha with ⟨i, hi, rfl⟩
      rcases List.mem_singleton.mp hb with rfl
      show i + 1 ≤ n + 1
      omega

theorem scenario_rows_sort_eq (ty dat : Nat → String) (tm : Nat → Nat) (n x : Nat) :
    queued_by_sequence { rows := scenario_rows ty dat tm n, next_id := x } =
      scenario_rows ty dat tm n := by
  unfold queued_by_sequence
  rw [show ({ rows := scenario_rows ty dat tm n, next_id := x } : QState).rows =
      scenario_rows ty dat tm n from rfl]
  rw [scenario_rows_filter_queued]
  exact List.Sorted.insertionSort_eq (scenario_rows_sorted ty dat tm n)

theorem scenario_rows_take (ty dat : Nat → String) (tm : Nat → Nat) :
    ∀ n k, k ≤ n → (scenario_rows ty dat tm n).take k = scenario_rows ty dat tm k := by
  intro n
  induction n with
  | zero =>
      intro k hk
      have : k = 0 := by omega
      subst this
      rfl
  | succ n ih =>
      intro k hk
      by_cases h : k ≤ n
      · rw [scenario_rows, List.take_append_of_le_length
          (by rw [scenario_rows_length]; exact h), ih k h]
      · have : k = n + 1 := by omega
        subst this
        have hlen : (scenario_rows ty dat tm (n + 1)).length = n + 1 :=
          scenario_rows_length ty dat tm (n + 1)
        calc (scenario_rows ty dat tm (n + 1)).take (n + 1)
            = (scenario_rows ty dat tm (n + 1)).take
                (scenario_rows ty dat tm (n + 1)).length := by rw [hlen]
          _ = scenario_rows ty dat tm (n + 1) := List.take_length _

theorem scenario_rows_any_id (ty dat : Nat → String) (tm : Nat → Nat) :
    ∀ k j, (scenario_rows ty dat tm k).any (fun a => a.id = j) = decide (j < k) := by
  intro k j
  induction k with
  | zero => simp [scenario_rows]
  | succ k ih =>
      rw [scenario_rows, List.any_append, ih]
      show (decide (j < k) || (scenario_rows ty dat tm 0 ++
          [scenario_item ty dat tm k]).any (fun a => decide (a.id = j))) =
        decide (j < k + 1)
      simp only [scenario_rows, List.nil_append, List.any_cons, List.any_nil,
        Bool.or_false, scenario_item]
      by_cases h : j < k + 1
      · by_cases h2 : j < k
        · simp [h, h2]
        · have h3 : k = j := by omega
          simp [h, h2, h3]
      · have h2 : ¬ j < k := by omega
        have h3 : ¬ (k = j) := by omega
        simp [h, h2, h3]

theorem scenario_last_sequence (ty dat : Nat → String) (tm : Nat → Nat)
    (n x : Nat) :
    last_sequence { rows := scenario_rows ty dat tm n, next_id := x } = n := by
  unfold last_sequence
  rw [show ({ rows := scenario_rows ty dat tm n, next_id := x } : QState).rows =
      scenario_rows ty dat tm n from rfl]
  rw [scenario_rows_foldr_max]
  omega

theorem enqueue_iter_closed_form (ty dat : Nat → String) (tm : Nat → Nat) :
    ∀ n, n ≤ 1000 → enqueue_iter ty dat tm n =
      { rows := scenario_rows ty dat tm n, next_id := n } := by
  intro n
  induction n with
  | zero =>
      intro _
      rfl
  | succ n ih =>
      intro hn
      show (enqueue_transaction (enqueue_iter ty dat tm n) (ty n) (dat n) (tm n)).1 = _
      rw [ih (by omega)]
      unfold enqueue_transaction
      simp only [scenario_rows_filter_queued, scenario_rows_length,
        scenario_last_sequence]
      rw [if_neg (by omega)]
      rfl

theorem archive_after_1001 (ty dat : Nat → String) (tm : Nat → Nat) :
    archive_old_queued_items 500 (tm 1000)
      { rows := scenario_rows ty dat tm (1000 + 1), next_id := 1000 + 1 } =
      { rows := (scenario_rows ty dat tm (1000 + 1)).map (scenario_mark ty dat tm),
        next_id := 1000 + 1 } := by
  unfold archive_old_queued_items
  rw [scenario_rows_sort_eq]
  simp only [scenario_rows_length]
  rw [if_pos (by omega)]
  rw [show (1000 + 1 - 500 : Nat) = 501 from by norm_num]
  rw [scenario_rows_take ty dat tm (1000 + 1) 501 (by omega)]
  have hfun : (fun it =>
      if (scenario_rows ty dat tm 501).any (fun a => a.id = it.id) then
        { it with status := QueueStatus.archived, archived_at := some (tm 1000) }
      else it) = scenario_mark ty dat tm :=
    funext (fun it => rfl)
  rw [hfun]

theorem enqueue_step_overflow (ty dat : Nat → String) (tm : Nat → Nat)
    (n : Nat) (hn : 1000 ≤ n) :
    (enqueue_transaction { rows := scenario_rows ty dat tm n, next_id := n }
        (ty n) (dat n) (tm n)).1 =
      archive_old_queued_items 500 (tm n)
        { rows := scenario_rows ty dat tm (n + 1), next_id := n + 1 } := by
  have hitem :
      (⟨n, n + 1, ty n, dat n, QueueStatus.queued, 0, none, none, tm n,
        none, none, none⟩ : QueueItem) = scenario_item ty dat tm n :=
    rfl
  have hrows : scenario_rows ty dat tm (n + 1) =
      scenario_rows ty dat tm n ++ [scenario_item ty dat tm n] :=
    rfl
  unfold enqueue_transaction
  simp only [scenario_rows_filter_queued, scenario_rows_length,
    scenario_last_sequence]
  rw [if_pos hn]
  rw [hitem, hrows]

theorem enqueue_iter_1001 (ty dat : Nat → String) (tm : Nat → Nat) :
    enqueue_iter ty dat tm 1001 =
      { rows := (scenario_rows ty dat tm 1001).map (scenario_mark ty dat tm),
        next_id := 1001 } := by
  have hstep : ∀ k, enqueue_iter ty dat tm (k + 1) =
      (enqueue_transaction (enqueue_iter ty dat tm k) (ty k) (dat k) (tm k)).1 :=
    fun k => rfl
  rw [show (1001 : Nat) = 1000 + 1 from rfl, hstep 1000,
    enqueue_iter_closed_form ty dat tm 1000 (le_refl _),
    enqueue_step_overflow ty dat tm 1000 (by omega),
    archive_after_1001]

theorem scenario_mark_item (ty dat : Nat → String) (tm : Nat → Nat) (i : Nat) :
    scenario_mark ty dat tm (scenario_item ty dat tm i) =
      if i < 501 then
        { scenario_item ty dat tm i with
            status := QueueStatus.archived, archived_at := some (tm 1000) }
      else scenario_item ty dat tm i := by
  unfold scenario_mark
  rw [show (scenario_item ty dat tm i).id = i from rfl]
  rw [scenario_rows_any_id]
  by_cases h : i < 501
  · rw [if_pos (by simpa using h), if_pos h]
    rfl
  · rw [if_neg (by simpa using h), if_neg h]

theorem scenario_marked_counts (ty dat : Nat → String) (tm : Nat → Nat) :
    ∀ n, (((scenario_rows ty dat tm n).map (scenario_mark ty dat tm)).filter
        (fun it => it.status = QueueStatus.queued)).length = n - min n 501 ∧
      (((scenario_rows ty dat tm n).map (scenario_mark ty dat tm)).filter
        (fun it => it.status = QueueStatus.archived)).length = min n 501 := by
  intro n
  induction n with
  | zero => simp [scenario_rows]
  | succ n ih =>
      rw [show scenario_rows ty dat tm (n + 1) =
          scenario_rows ty dat tm n ++ [scenario_item ty dat tm n] from rfl]
      simp only [List.map_append, List.filter_append, List.length_append,
        List.map_cons, List.map_nil, scenario_mark_item]
      by_cases h : n < 501
      · rw [if_pos h]
        have hq : (List.filter (fun it => it.status = QueueStatus.queued)
            [{ scenario_item ty dat tm n with
                status := QueueStatus.archived,
                archived_at := some (tm 1000) }]).length = 0 := by
          simp [scenario_item]
        have ha : (List.filter (fun it => it.status = QueueStatus.archived)
            [{ scenario_item ty dat tm n with
                status := QueueStatus.archived,
                archived_at := some (tm 1000) }]).length = 1 := by
          simp [scenario_item]
        rw [hq, ha, ih.1, ih.2]
        omega
      · rw [if_neg h]
        have hq : (List.filter (fun it => it.status = QueueStatus.queued)
            [scenario_item ty dat tm n]).length = 1 := by
          simp [scenario_item]
        have ha : (List.filter (fun it => it.status = QueueStatus.archived)
            [scenario_item ty dat tm n]).length = 0 := by
          simp [scenario_item]
        rw [hq, ha, ih.1, ih.2]
        omega

theorem qstate_rows_mk (l : List QueueItem) (x : Nat) :
    ({ rows := l, next_id := x } : QState).rows = l :=
  rfl

theorem get_queue_stats_total (st : QState) :
    (get_queue_stats st).total = st.rows.length :=
  rfl

theorem get_queue_stats_queued (st : QState) :
    (get_queue_stats st).queued =
      (st.rows.filter (fun it => it.status = QueueStatus.queued)).length :=
  rfl

theorem scenario_marked_all (ty dat : Nat → String) (tm : Nat → Nat)
    (n : Nat) :
    ((scenario_rows ty dat tm n).map (scenario_mark ty dat tm)).all
      (fun it => decide ((it.status = QueueStatus.queued ↔ 502 ≤ it.sequence) ∧
        (it.status = QueueStatus.archived ↔ it.sequence ≤ 501) ∧
        (it.status = QueueStatus.archived → it.archived_at = some (tm 1000)))) =
      true := by
  rw [List.all_eq_true]
  intro it hit
  rcases List.mem_map.mp hit with ⟨x, hx, rfl⟩
  rcases (scenario_rows_mem ty dat tm n x).mp hx with ⟨i, hi, rfl⟩
  rw [scenario_mark_item, decide_eq_true_eq]
  by_cases h : i < 501
  · rw [if_pos h]
    refine ⟨?_, ?_, fun _ => rfl⟩
    · constructor
      · intro habs
        cases habs
      · intro habs
        exfalso
        have : (({ scenario_item ty dat tm i with
            status := QueueStatus.archived,
            archived_at := some (tm 1000) } : QueueItem)).sequence = i + 1 := rfl
        omega
    · constructor
      · intro _
        show i + 1 ≤ 501
        omega
      · intro _
        rfl
  · rw [if_neg h]
    refine ⟨?_, ?_, ?_⟩
    · constructor
      · intro _
        show 502 ≤ i + 1
        omega
      · intro _
        rfl
    · constructor
      · intro habs
        cases habs
      · intro habs
        exfalso
        have : (scenario_item ty dat tm i).sequence = i + 1 := rfl
        omega
    · intro habs
      cases habs

/-- Claim C3, confirmed.  Starting from an empty queue, after 1001
successive enqueues for one owner no row is lost: `get_queue_stats`
reports `total = 1001` and `queued = 500`, 501 rows are `archived`, and
row-by-row a row is `queued` exactly when its sequence is at least 502,
`archived` exactly when its sequence is at most 501, and every archived
row is stamped with the archival time (the 1001st enqueue found the
owner's queued count at the 1000-item overflow threshold and archived
all but the most recent 500 queued rows instead of discarding any). -/
theorem queue_overflow_archives_not_drops (ty dat : Nat → String) (tm : Nat → Nat) :
    (get_queue_stats (enqueue_iter ty dat tm 1001)).total = 1001 ∧
    (get_queue_stats (enqueue_iter ty dat tm 1001)).queued = 500 ∧
    ((enqueue_iter ty dat tm 1001).rows.filter
        (fun it => it.status = QueueStatus.archived)).length = 501 ∧
    (enqueue_iter ty dat tm 1001).rows.all
      (fun it => decide ((it.status = QueueStatus.queued ↔ 502 ≤ it.sequence) ∧
        (it.status = QueueStatus.archived ↔ it.sequence ≤ 501) ∧
        (it.status = QueueStatus.archived → it.archived_at = some (tm 1000)))) =
      true := by
  rw [enqueue_iter_1001]
  refine ⟨?_, ?_, ?_, ?_⟩
  · rw [get_queue_stats_total, qstate_rows_mk, List.length_map, scenario_rows_length]
  · rw [get_queue_stats_queued, qstate_rows_mk,
      (scenario_marked_counts ty dat tm 1001).1]
    decide
  · rw [qstate_rows_mk, (scenario_marked_counts ty dat tm 1001).2]
    decide
  · rw [qstate_rows_mk]
    exact scenario_marked_all ty dat tm 1001

end PosOffline
